import Mathlib

/-!
# Verification of the shipping-data reconciliation engine (`populate.py`)

Shallow embedding of the single source file `src/populate.py` of the
repository `forage-walmart-task-4`.  The script reads three CSV sources,
reconciles them into one `(product, shipment)` relational shape, and
populates a SQLite store.

Modelling choices (all traced to the source):
* A CSV row (Python `csv.DictReader` output, a `dict`) is an ordered
  association list `Row`; `row[k]` is `rowGet`/`rowGetE`, where a missing
  key raises `KeyError` — embedded as `Err.malformedMissingField`.
* Python `int(s)` is `pythonInt` (optional surrounding whitespace, optional
  sign, decimal digits; the rarely-used underscore-separator form of Python
  is not modelled).  A parse failure (`ValueError`) is `Err.malformedBadInt`.
  Both error constructors are the `MalformedRecord` taxonomy of the spec.
* The SQLite store is `DB`: a product table, a shipment table, and the next
  row id the engine would assign (`cursor.lastrowid` after an insert).
* `conn.commit` / `conn.rollback` in `main` become `mainVisible`: the store
  visible after the run is the fully processed store on success and the
  untouched initial store on any propagated error.
-/

/-- A CSV row: ordered field-name → value association list
(`csv.DictReader` yields a dict per row). -/
abbrev Row := List (String × String)

/-- Errors the script can raise while processing rows.  Both constructors are
the spec's `MalformedRecord` kind: a required field is missing
(Python `KeyError` from `row[k]`) or `product_quantity` fails integer
conversion (Python `ValueError` from `int`). -/
inductive Err where
  | malformedMissingField (field : String)
  | malformedBadInt (s : String)
deriving DecidableEq

/-- Python `row[k]`: the value bound to the first occurrence of key `k`. -/
def rowGet (r : Row) (k : String) : Option String :=
  match r with
  | [] => none
  | (k', v) :: rest => if k' = k then some v else rowGet rest k

/-- Reading `row[k]` in an error-propagating context: a missing key is a
`KeyError`, i.e. a malformed record. -/
def rowGetE (r : Row) (k : String) : Except Err String :=
  match rowGet r k with
  | some v => Except.ok v
  | none => Except.error (Err.malformedMissingField k)

/-- Python `str.strip()` of surrounding whitespace, on the character list. -/
def stripChars (cs : List Char) : List Char :=
  ((cs.dropWhile (fun c => c.isWhitespace)).reverse.dropWhile
    (fun c => c.isWhitespace)).reverse

/-- Digit-list accumulator for `pythonInt`. -/
def digitsVal : List Char → Nat → Option Nat
  | [], acc => some acc
  | c :: cs, acc =>
      if c.isDigit then digitsVal cs (acc * 10 + (c.toNat - 48)) else none

/-- A non-empty all-digit character list, as a number. -/
def digitsToNat (cs : List Char) : Option Nat :=
  if cs.isEmpty then none else digitsVal cs 0

/-- Python `int(s)`: strip surrounding whitespace, optional `+`/`-` sign,
then a non-empty run of decimal digits. -/
def pythonInt (s : String) : Option Int :=
  match stripChars s.toList with
  | '-' :: rest => (digitsToNat rest).map (fun n => -(n : Int))
  | '+' :: rest => (digitsToNat rest).map (fun n => (n : Int))
  | cs => (digitsToNat cs).map (fun n => (n : Int))

/-- Converting with `int(...)` in an error-propagating context: a failed conversion is a
`ValueError`, i.e. a malformed record. -/
def parseIntE (s : String) : Except Err Int :=
  match pythonInt s with
  | some n => Except.ok n
  | none => Except.error (Err.malformedBadInt s)

/-- A row of the `product` table: `product(id PRIMARY KEY, name)`. -/
structure Product where
  id : Nat
  name : String
deriving DecidableEq

/-- A row of the `shipment` table:
`shipment(product_id, quantity, origin, destination)`. -/
structure Shipment where
  product_id : Nat
  quantity : Int
  origin : String
  destination : String
deriving DecidableEq

/-- The SQLite store: both tables plus the row id SQLite would assign to the
next inserted product (`cursor.lastrowid` of that insert). -/
structure DB where
  products : List Product
  shipments : List Shipment
  nextId : Nat
deriving DecidableEq

/-- A freshly initialized store. -/
def emptyDB : DB := ⟨[], [], 1⟩

/-- Embeds `get_or_create_product(cursor, product_name)` (populate.py:19-39):
`SELECT id FROM product WHERE name = ?` and return the id when the fetch
succeeds, else `INSERT INTO product (name) VALUES (?)` and return
`cursor.lastrowid`. -/
def get_or_create_product (db : DB) (product_name : String) : Nat × DB :=
  match db.products.find? (fun p => p.name == product_name) with
  | some p => (p.id, db)
  | none =>
      (db.nextId,
       { products := db.products ++ [⟨db.nextId, product_name⟩],
         shipments := db.shipments,
         nextId := db.nextId + 1 })

/-- Embeds `insert_shipment(cursor, product_id, quantity, origin, destination)`
(populate.py:42-56): append one row to the `shipment` table. -/
def insert_shipment (db : DB) (product_id : Nat) (quantity : Int)
    (origin destination : String) : DB :=
  { db with shipments :=
      db.shipments ++ [⟨product_id, quantity, origin, destination⟩] }

/-- The normalized shape every source row is converted to before
persistence. -/
structure Canon where
  product_name : String
  quantity : Int
  origin : String
  destination : String
deriving DecidableEq

/-- Field extraction of one self-contained row: the body of the loop of
`process_shipping_data_0` (populate.py:69-72), before any database call.
`product_name = row[..]; quantity = int(row[..]); origin = row[..];
destination = row[..]` in the source's evaluation order. -/
def normalize0 (r : Row) : Except Err Canon := do
  let product_name ← rowGetE r "product"
  let qs ← rowGetE r "product_quantity"
  let quantity ← parseIntE qs
  let origin ← rowGetE r "origin_warehouse"
  let destination ← rowGetE r "destination_store"
  Except.ok ⟨product_name, quantity, origin, destination⟩

/-- Persist one canonical tuple (populate.py:74-75 and 118-119):
`product_id = get_or_create_product(...)` then `insert_shipment(...)`. -/
def persistCanon (db : DB) (c : Canon) : DB :=
  let pr := get_or_create_product db c.product_name
  insert_shipment pr.2 pr.1 c.quantity c.origin c.destination

/-- Embeds `process_shipping_data_0(cursor, filepath)` (populate.py:59-75), with the
file's parsed rows passed explicitly: normalize and persist each row in
order; the first malformed row aborts with its error. -/
def process_shipping_data_0 (db : DB) : List Row → Except Err DB
  | [] => Except.ok db
  | r :: rs => do
      let c ← normalize0 r
      process_shipping_data_0 (persistCanon db c) rs

/-- Location info of one shipment identifier: `(origin, destination)`. -/
abbrev LocInfo := String × String

/-- The transient `shipment_info` dictionary: shipment identifier →
location info. -/
abbrev ShipInfo := List (String × LocInfo)

/-- Dictionary lookup in `shipment_info`. -/
def lookupLoc (info : ShipInfo) (sid : String) : Option LocInfo :=
  match info with
  | [] => none
  | (s, l) :: rest => if s = sid then some l else lookupLoc rest sid

/-- Python dict assignment `shipment_info[sid] = {...}`: overwrite the
binding when the key is present, append it otherwise. -/
def upsertLoc : ShipInfo → String → LocInfo → ShipInfo
  | [], sid, loc => [(sid, loc)]
  | (s, l) :: rest, sid, loc =>
      if s = sid then (s, loc) :: rest else (s, l) :: upsertLoc rest sid loc

/-- The first loop of `process_shipping_data_1_and_2` (populate.py:86-94):
fold the location rows into the `shipment_info` dictionary, reading
`shipment_identifier`, `origin_warehouse`, `destination_store` from each. -/
def buildShipmentInfoGo (info : ShipInfo) : List Row → Except Err ShipInfo
  | [] => Except.ok info
  | r :: rs => do
      let sid ← rowGetE r "shipment_identifier"
      let origin ← rowGetE r "origin_warehouse"
      let destination ← rowGetE r "destination_store"
      buildShipmentInfoGo (upsertLoc info sid (origin, destination)) rs

/-- The `shipment_info` dictionary built from the location source, starting empty. -/
def buildShipmentInfo (rows : List Row) : Except Err ShipInfo :=
  buildShipmentInfoGo [] rows

/-- The transient `product_counts` accumulator: shipment identifier →
(product name → count), both levels in first-seen insertion order as for
Python dicts. -/
abbrev Counts := List (String × List (String × Nat))

/-- Inner-dict increment `d[product] += 1` of a `defaultdict(int)`:
bump the first binding of the product, appending `(product, 1)` when the
product is new. -/
def bumpInner : List (String × Nat) → String → List (String × Nat)
  | [], p => [(p, 1)]
  | (q, n) :: rest, p =>
      if q = p then (q, n + 1) :: rest else (q, n) :: bumpInner rest p

/-- The increment `product_counts[sid][product] += 1` (populate.py:105). -/
def bump : Counts → String → String → Counts
  | [], sid, p => [(sid, [(p, 1)])]
  | (s, inner) :: rest, sid, p =>
      if s = sid then (s, bumpInner inner p) :: rest
      else (s, inner) :: bump rest sid p

/-- The second loop of `process_shipping_data_1_and_2` (populate.py:100-105):
fold the fact rows into `product_counts`, reading `shipment_identifier` and
`product` from each. -/
def buildCountsGo (acc : Counts) : List Row → Except Err Counts
  | [] => Except.ok acc
  | r :: rs => do
      let sid ← rowGetE r "shipment_identifier"
      let p ← rowGetE r "product"
      buildCountsGo (bump acc sid p) rs

/-- The `product_counts` accumulator built from the fact source, starting empty. -/
def buildCounts (rows : List Row) : Except Err Counts :=
  buildCountsGo [] rows

/-- The warning printed for a shipment identifier with no location entry
(populate.py:110). -/
def warnMsg (sid : String) : String :=
  "Warning: No origin/destination found for shipment " ++ sid

/-- One iteration of the emission loop (populate.py:108-119) for the entry of
one shipment identifier: when the identifier has no location entry, emit no
tuple and one warning and continue; otherwise emit one canonical tuple per
accumulated product with the looked-up origin and destination. -/
def emitEntry (info : ShipInfo) (e : String × List (String × Nat)) :
    List Canon × List String :=
  match lookupLoc info e.1 with
  | none => ([], [warnMsg e.1])
  | some loc => (e.2.map (fun pq => ⟨pq.1, (pq.2 : Int), loc.1, loc.2⟩), [])

/-- The full emission loop over `product_counts`, collecting the canonical
tuples and the warnings in iteration order. -/
def emitTuples (info : ShipInfo) : Counts → List Canon × List String
  | [] => ([], [])
  | e :: rest =>
      let first := emitEntry info e
      let others := emitTuples info rest
      (first.1 ++ others.1, first.2 ++ others.2)

/-- Embeds `process_shipping_data_1_and_2(cursor, filepath_1, filepath_2)`
(populate.py:78-119), with both files' parsed rows passed explicitly: build
`shipment_info`, build `product_counts`, then persist each emitted canonical
tuple in order, collecting the warnings. -/
def process_shipping_data_1_and_2 (db : DB) (rows1 rows2 : List Row) :
    Except Err (DB × List String) := do
  let info ← buildShipmentInfo rows2
  let counts ← buildCounts rows1
  let out := emitTuples info counts
  Except.ok (out.1.foldl persistCanon db, out.2)

/-- The processing sequence of `main` (populate.py:128-139): the
self-contained source first, then the joined family, threading the store. -/
def runPipeline (db : DB) (rows0 rows1 rows2 : List Row) :
    Except Err (DB × List String) := do
  let db1 ← process_shipping_data_0 db rows0
  process_shipping_data_1_and_2 db1 rows1 rows2

/-- The store visible after `main` (populate.py:128-160): `conn.commit()` on
success makes the processed store visible; on any propagated exception
`conn.rollback()` discards every write of the run, so the initial store is
visible and the error is re-raised (the second component). -/
def mainVisible (db : DB) (rows0 rows1 rows2 : List Row) : DB × Option Err :=
  match runPipeline db rows0 rows1 rows2 with
  | Except.ok (db', _) => (db', none)
  | Except.error e => (db, some e)

/-- A location row that the first loop can consume without a `KeyError`. -/
def wfLocRow (r : Row) : Bool :=
  (rowGet r "shipment_identifier").isSome &&
    (rowGet r "origin_warehouse").isSome &&
    (rowGet r "destination_store").isSome

/-- A fact row that the second loop can consume without a `KeyError`. -/
def wfFactRow (r : Row) : Bool :=
  (rowGet r "shipment_identifier").isSome && (rowGet r "product").isSome

/-! ## Basic lemmas about row access -/

theorem rowGetE_ok_iff (r : Row) (k v : String) :
    rowGetE r k = Except.ok v ↔ rowGet r k = some v := by
  unfold rowGetE
  cases h : rowGet r k <;> simp

theorem rowGetE_error_iff (r : Row) (k : String) (e : Err) :
    rowGetE r k = Except.error e ↔
      rowGet r k = none ∧ e = Err.malformedMissingField k := by
  unfold rowGetE
  cases h : rowGet r k <;> simp [eq_comm]

/-! ## The location dictionary: lookup after upsert -/

theorem lookupLoc_upsertLoc (info : ShipInfo) (sid : String) (loc : LocInfo)
    (sid' : String) :
    lookupLoc (upsertLoc info sid loc) sid' =
      if sid' = sid then some loc else lookupLoc info sid' := by
  induction info with
  | nil =>
      by_cases h : sid' = sid
      · subst h; simp [upsertLoc, lookupLoc]
      · simp [upsertLoc, lookupLoc, h, Ne.symm h]
  | cons e rest ih =>
      obtain ⟨s, l⟩ := e
      by_cases hs : s = sid
      · subst hs
        by_cases h : sid' = s
        · subst h; simp [upsertLoc, lookupLoc]
        · simp [upsertLoc, lookupLoc, h, Ne.symm h]
      · by_cases h : sid' = s
        · subst h
          have hss : ¬sid' = sid := hs
          simp [upsertLoc, lookupLoc, hs, hss]
        · simp [upsertLoc, lookupLoc, hs, h, Ne.symm h, ih]

/-- The origin/destination fields of a single location row. -/
def rowLoc (r : Row) : Option LocInfo :=
  match rowGet r "origin_warehouse", rowGet r "destination_store" with
  | some o, some d => some (o, d)
  | _, _ => none

/-- Spec-side description of the built location dictionary ("if duplicated,
last write wins", §4.3 step 1): scanning from the end of the location
source, the first (hence overall last) row carrying the given shipment
identifier wins. -/
def lastLocSpec (rows : List Row) (sid : String) : Option LocInfo :=
  match rows.reverse.find?
      (fun r => decide (rowGet r "shipment_identifier" = some sid)) with
  | some r => rowLoc r
  | none => none

/-- A well-formed location row yields its location info. -/
theorem rowLoc_of_wf (r : Row) (h : wfLocRow r = true) :
    ∃ loc, rowLoc r = some loc := by
  unfold wfLocRow at h
  simp only [Bool.and_eq_true, Option.isSome_iff_exists] at h
  obtain ⟨⟨⟨sid, hsid⟩, o, ho⟩, d, hd⟩ := h
  exact ⟨(o, d), by unfold rowLoc; rw [ho, hd]⟩

/-- Every row consumed by a successful run of the location loop is
well-formed. -/
theorem buildShipmentInfoGo_ok_wf (rows : List Row) :
    ∀ acc res, buildShipmentInfoGo acc rows = Except.ok res →
      ∀ r ∈ rows, wfLocRow r = true := by
  induction rows with
  | nil => intro acc res _ r hr; cases hr
  | cons r rs ih =>
      intro acc res h r' hr'
      simp only [buildShipmentInfoGo] at h
      cases h1 : rowGetE r "shipment_identifier" with
      | error e => rw [h1] at h; simp [Bind.bind, Except.bind] at h
      | ok sidr =>
        rw [h1] at h
        cases h2 : rowGetE r "origin_warehouse" with
        | error e => rw [h2] at h; simp [Bind.bind, Except.bind] at h
        | ok o =>
          rw [h2] at h
          cases h3 : rowGetE r "destination_store" with
          | error e => rw [h3] at h; simp [Bind.bind, Except.bind] at h
          | ok d =>
            rw [h3] at h
            simp only [Bind.bind, Except.bind] at h
            rcases List.mem_cons.mp hr' with rfl | hmem
            · unfold wfLocRow
              rw [(rowGetE_ok_iff _ _ _).mp h1, (rowGetE_ok_iff _ _ _).mp h2,
                (rowGetE_ok_iff _ _ _).mp h3]
              rfl
            · exact ih _ _ h r' hmem

theorem lastLocSpec_nil (sid : String) : lastLocSpec [] sid = none := rfl

theorem lastLocSpec_cons (r : Row) (rs : List Row) (sid : String)
    (hwf : ∀ x ∈ rs, wfLocRow x = true) :
    lastLocSpec (r :: rs) sid =
      (lastLocSpec rs sid).or
        (if rowGet r "shipment_identifier" = some sid then rowLoc r
         else none) := by
  unfold lastLocSpec
  rw [List.reverse_cons, List.find?_append]
  cases hfind : rs.reverse.find?
      (fun x => decide (rowGet x "shipment_identifier" = some sid)) with
  | none =>
      by_cases h : rowGet r "shipment_identifier" = some sid
      · simp [List.find?_cons, h]
      · simp [List.find?_cons, h]
  | some r' =>
      have hmem : r' ∈ rs := List.mem_reverse.mp (List.mem_of_find?_eq_some hfind)
      obtain ⟨loc, hloc⟩ := rowLoc_of_wf r' (hwf r' hmem)
      simp [hloc]

theorem buildShipmentInfoGo_lookup (rows : List Row) :
    ∀ acc res, buildShipmentInfoGo acc rows = Except.ok res →
      ∀ sid, lookupLoc res sid = (lastLocSpec rows sid).or (lookupLoc acc sid) := by
  induction rows with
  | nil =>
      intro acc res h sid
      simp only [buildShipmentInfoGo] at h
      cases h
      simp [lastLocSpec_nil]
  | cons r rs ih =>
      intro acc res h sid
      simp only [buildShipmentInfoGo] at h
      cases h1 : rowGetE r "shipment_identifier" with
      | error e => rw [h1] at h; simp [Bind.bind, Except.bind] at h
      | ok sidr =>
        rw [h1] at h
        cases h2 : rowGetE r "origin_warehouse" with
        | error e => rw [h2] at h; simp [Bind.bind, Except.bind] at h
        | ok o =>
          rw [h2] at h
          cases h3 : rowGetE r "destination_store" with
          | error e => rw [h3] at h; simp [Bind.bind, Except.bind] at h
          | ok d =>
            rw [h3] at h
            simp only [Bind.bind, Except.bind] at h
            have hwf : ∀ x ∈ rs, wfLocRow x = true :=
              buildShipmentInfoGo_ok_wf rs _ _ h
            have hrec := ih _ _ h sid
            rw [hrec, lookupLoc_upsertLoc, lastLocSpec_cons r rs sid hwf,
              Option.or_assoc]
            congr 1
            have hg1 : rowGet r "shipment_identifier" = some sidr :=
              (rowGetE_ok_iff _ _ _).mp h1
            have hg2 : rowGet r "origin_warehouse" = some o :=
              (rowGetE_ok_iff _ _ _).mp h2
            have hg3 : rowGet r "destination_store" = some d :=
              (rowGetE_ok_iff _ _ _).mp h3
            by_cases hsid : sid = sidr
            · subst hsid
              rw [if_pos rfl, if_pos hg1]
              unfold rowLoc
              rw [hg2, hg3]
              simp
            · have hne : ¬rowGet r "shipment_identifier" = some sid := by
                rw [hg1]
                simp
                exact fun hh => hsid hh.symm
              rw [if_neg hsid, if_neg hne]
              simp

theorem buildShipmentInfoGo_ok_of_wf (rows : List Row) :
    ∀ acc, (∀ r ∈ rows, wfLocRow r = true) →
      ∃ res, buildShipmentInfoGo acc rows = Except.ok res := by
  induction rows with
  | nil => intro acc _; exact ⟨acc, rfl⟩
  | cons r rs ih =>
      intro acc hwf
      have hr := hwf r (List.mem_cons_self r rs)
      unfold wfLocRow at hr
      simp only [Bool.and_eq_true, Option.isSome_iff_exists] at hr
      obtain ⟨⟨⟨sid, hsid⟩, o, ho⟩, d, hd⟩ := hr
      obtain ⟨res, hres⟩ :=
        ih (upsertLoc acc sid (o, d)) (fun x hx => hwf x (List.mem_cons_of_mem _ hx))
      refine ⟨res, ?_⟩
      simp only [buildShipmentInfoGo]
      rw [(rowGetE_ok_iff r "shipment_identifier" sid).mpr hsid]
      simp only [Bind.bind, Except.bind]
      rw [(rowGetE_ok_iff r "origin_warehouse" o).mpr ho]
      rw [(rowGetE_ok_iff r "destination_store" d).mpr hd]
      exact hres

/-- C6: when the location rows contain several entries with the same
`shipment_identifier`, the built mapping holds the origin and destination of
the last such entry in input order (last write wins), and duplicate
identifiers are not treated as an error: any list of well-formed location
rows builds successfully. -/
theorem location_last_write_wins (rows2 : List Row) (sid : String) :
    ((∀ r ∈ rows2, wfLocRow r = true) →
      ∃ info, buildShipmentInfo rows2 = Except.ok info) ∧
    (∀ info, buildShipmentInfo rows2 = Except.ok info →
      lookupLoc info sid = lastLocSpec rows2 sid) := by
  constructor
  · intro hwf
    exact buildShipmentInfoGo_ok_of_wf rows2 [] hwf
  · intro info h
    have hl := buildShipmentInfoGo_lookup rows2 [] info h sid
    simpa [lookupLoc] using hl

/-- A location source with two entries for shipment `A1`. -/
def cDupRows2 : List Row :=
  [[("shipment_identifier", "A1"), ("origin_warehouse", "W2"),
    ("destination_store", "S2")],
   [("shipment_identifier", "A1"), ("origin_warehouse", "W3"),
    ("destination_store", "S3")]]

/-- The mapping built from `cDupRows2`. -/
def cDupInfo : ShipInfo := [("A1", ("W3", "S3"))]

theorem location_last_write_wins_witness :
    lookupLoc cDupInfo "A1" = lastLocSpec cDupRows2 "A1" ∧
      lastLocSpec cDupRows2 "A1" = some ("W3", "S3") :=
  ⟨(location_last_write_wins cDupRows2 "A1").2 cDupInfo (by rfl), by decide⟩

/-! ## The counts accumulator -/

/-- Lookup in the inner dict (product → count). -/
def lookupInner : List (String × Nat) → String → Option Nat
  | [], _ => none
  | (q, n) :: rest, p => if q = p then some n else lookupInner rest p

/-- Lookup in the outer dict (shipment identifier → inner dict). -/
def lookupCounts : Counts → String → Option (List (String × Nat))
  | [], _ => none
  | (s, inner) :: rest, sid =>
      if s = sid then some inner else lookupCounts rest sid

/-- The accumulated count for a (shipment identifier, product) pair; 0 when
the pair has never been seen (the `defaultdict(int)` default). -/
def countOf (c : Counts) (sid p : String) : Nat :=
  (lookupInner ((lookupCounts c sid).getD []) p).getD 0

theorem lookupInner_bumpInner (inner : List (String × Nat)) (p p' : String) :
    lookupInner (bumpInner inner p) p' =
      if p' = p then some ((lookupInner inner p).getD 0 + 1)
      else lookupInner inner p' := by
  induction inner with
  | nil =>
      by_cases h : p' = p
      · subst h; simp [bumpInner, lookupInner]
      · simp [bumpInner, lookupInner, h, Ne.symm h]
  | cons e rest ih =>
      obtain ⟨q, n⟩ := e
      by_cases hq : q = p
      · subst hq
        by_cases h : p' = q
        · subst h; simp [bumpInner, lookupInner]
        · simp [bumpInner, lookupInner, h, Ne.symm h]
      · by_cases h : p' = q
        · subst h
          have hpp : ¬p' = p := hq
          simp [bumpInner, lookupInner, hq, hpp]
        · simp [bumpInner, lookupInner, hq, h, Ne.symm h, ih]

theorem lookupCounts_bump (c : Counts) (sid p : String) (sid' : String) :
    lookupCounts (bump c sid p) sid' =
      if sid' = sid then some (bumpInner ((lookupCounts c sid).getD []) p)
      else lookupCounts c sid' := by
  induction c with
  | nil =>
      by_cases h : sid' = sid
      · subst h; simp [bump, lookupCounts, bumpInner]
      · simp [bump, lookupCounts, h, Ne.symm h]
  | cons e rest ih =>
      obtain ⟨s, inner⟩ := e
      by_cases hs : s = sid
      · subst hs
        by_cases h : sid' = s
        · subst h; simp [bump, lookupCounts]
        · simp [bump, lookupCounts, h, Ne.symm h]
      · by_cases h : sid' = s
        · subst h
          have hss : ¬sid' = sid := hs
          simp [bump, lookupCounts, hs, hss]
        · simp [bump, lookupCounts, hs, h, Ne.symm h, ih]

theorem countOf_bump (c : Counts) (sid p sid' p' : String) :
    countOf (bump c sid p) sid' p' =
      countOf c sid' p' + (if sid' = sid ∧ p' = p then 1 else 0) := by
  unfold countOf
  rw [lookupCounts_bump]
  by_cases hs : sid' = sid
  · subst hs
    rw [if_pos rfl]
    simp only [Option.getD_some]
    rw [lookupInner_bumpInner]
    by_cases hp : p' = p
    · subst hp; simp
    · simp [hp]
  · simp [hs]

/-- The predicate "this fact row carries the pair (sid, p)". -/
def factPred (sid p : String) (r : Row) : Bool :=
  decide (rowGet r "shipment_identifier" = some sid ∧ rowGet r "product" = some p)

theorem buildCountsGo_count (rows : List Row) :
    ∀ acc res, buildCountsGo acc rows = Except.ok res →
      ∀ sid p, countOf res sid p = countOf acc sid p + rows.countP (factPred sid p) := by
  induction rows with
  | nil =>
      intro acc res h sid p
      simp only [buildCountsGo] at h
      cases h
      simp
  | cons r rs ih =>
      intro acc res h sid p
      simp only [buildCountsGo] at h
      cases h1 : rowGetE r "shipment_identifier" with
      | error e => rw [h1] at h; simp [Bind.bind, Except.bind] at h
      | ok sidr =>
        rw [h1] at h
        cases h2 : rowGetE r "product" with
        | error e => rw [h2] at h; simp [Bind.bind, Except.bind] at h
        | ok pr =>
          rw [h2] at h
          simp only [Bind.bind, Except.bind] at h
          have hrec := ih _ _ h sid p
          rw [hrec, countOf_bump, List.countP_cons]
          have hg1 : rowGet r "shipment_identifier" = some sidr :=
            (rowGetE_ok_iff _ _ _).mp h1
          have hg2 : rowGet r "product" = some pr :=
            (rowGetE_ok_iff _ _ _).mp h2
          have hfp : factPred sid p r = true ↔ (sid = sidr ∧ p = pr) := by
            unfold factPred
            rw [hg1, hg2]
            simp only [decide_eq_true_eq, Option.some.injEq]
            exact ⟨fun hh => ⟨hh.1.symm, hh.2.symm⟩,
              fun hh => ⟨hh.1.symm, hh.2.symm⟩⟩
          by_cases hc : sid = sidr ∧ p = pr
          · rw [if_pos hc, if_pos (hfp.mpr hc)]; omega
          · rw [if_neg hc, if_neg (fun hh => hc (hfp.mp hh))]; omega

theorem lookupInner_isSome_iff (l : List (String × Nat)) (p : String) :
    (lookupInner l p).isSome = true ↔ p ∈ l.map Prod.fst := by
  induction l with
  | nil => simp [lookupInner]
  | cons e rest ih =>
      obtain ⟨q, n⟩ := e
      by_cases h : q = p
      · subst h; simp [lookupInner]
      · simp [lookupInner, h, Ne.symm h, ih]

theorem lookupInner_mem (l : List (String × Nat)) (p : String) (n : Nat)
    (h : lookupInner l p = some n) : (p, n) ∈ l := by
  induction l with
  | nil => cases h
  | cons e rest ih =>
      obtain ⟨q, m⟩ := e
      by_cases hq : q = p
      · subst hq
        unfold lookupInner at h
        rw [if_pos rfl] at h
        cases h
        exact List.mem_cons_self _ _
      · unfold lookupInner at h
        rw [if_neg hq] at h
        exact List.mem_cons_of_mem _ (ih h)

theorem lookupCounts_mem (c : Counts) (sid : String)
    (inner : List (String × Nat)) (h : lookupCounts c sid = some inner) :
    (sid, inner) ∈ c := by
  induction c with
  | nil => cases h
  | cons e rest ih =>
      obtain ⟨s, l⟩ := e
      by_cases hs : s = sid
      · subst hs
        unfold lookupCounts at h
        rw [if_pos rfl] at h
        cases h
        exact List.mem_cons_self _ _
      · unfold lookupCounts at h
        rw [if_neg hs] at h
        exact List.mem_cons_of_mem _ (ih h)

/-- C1: for every sequence of fact rows the engine consumes successfully,
the quantity accumulated — and later emitted — for a
(shipment_identifier, product_name) pair equals the exact number of fact
rows carrying that pair; the count is the same for any permutation of the
fact rows; and whenever the identifier has a location entry, the canonical
tuple emitted for the pair carries exactly this count as its quantity. -/
theorem buildCounts_countOf (rows1 : List Row) (c : Counts) (sid p : String)
    (h : buildCounts rows1 = Except.ok c) :
    countOf c sid p = rows1.countP (factPred sid p) := by
  have hgo := buildCountsGo_count rows1 [] c h sid p
  simpa [countOf, lookupCounts, lookupInner] using hgo

theorem aggregation_correct (rows1 : List Row) (c : Counts) (sid p : String)
    (h : buildCounts rows1 = Except.ok c) :
    countOf c sid p = rows1.countP (factPred sid p) ∧
    (∀ rows1' c', rows1'.Perm rows1 → buildCounts rows1' = Except.ok c' →
      countOf c' sid p = countOf c sid p) ∧
    (∀ (info : ShipInfo) (loc : LocInfo) (prods : List (String × Nat)),
      lookupLoc info sid = some loc → lookupCounts c sid = some prods →
      p ∈ prods.map Prod.fst →
      Canon.mk p ((countOf c sid p : Nat) : Int) loc.1 loc.2 ∈
        (emitEntry info (sid, prods)).1) := by
  have hmain := buildCounts_countOf rows1 c sid p h
  refine ⟨hmain, ?_, ?_⟩
  · intro rows1' c' hperm h'
    have hmain' := buildCounts_countOf rows1' c' sid p h'
    rw [hmain, hmain', hperm.countP_eq]
  · intro info loc prods hl hc hp
    unfold emitEntry
    simp only [hl]
    have hsome : (lookupInner prods p).isSome = true :=
      (lookupInner_isSome_iff prods p).mpr hp
    obtain ⟨n, hn⟩ := Option.isSome_iff_exists.mp hsome
    have hcount : countOf c sid p = n := by
      unfold countOf
      rw [hc, Option.getD_some, hn, Option.getD_some]
    rw [hcount]
    exact List.mem_map.mpr ⟨(p, n), lookupInner_mem prods p n hn, rfl⟩

/-- The fact rows of the spec's worked example. -/
def cRows1 : List Row :=
  [[("shipment_identifier", "A1"), ("product", "Bolt")],
   [("shipment_identifier", "A1"), ("product", "Bolt")],
   [("shipment_identifier", "A1"), ("product", "Nut")]]

/-- The counts accumulator built from `cRows1`. -/
def cCounts : Counts := [("A1", [("Bolt", 2), ("Nut", 1)])]

theorem aggregation_correct_witness :
    countOf cCounts "A1" "Bolt" = List.countP (factPred "A1" "Bolt") cRows1 ∧
      List.countP (factPred "A1" "Bolt") cRows1 = 2 :=
  ⟨(aggregation_correct cRows1 cCounts "A1" "Bolt" (by rfl)).1, by decide⟩

/-! ## Invariants of the counts accumulator -/

/-- Invariant of the counts accumulator: outer keys are distinct, each
inner dict has distinct keys, and every stored count is positive. -/
def goodCounts (c : Counts) : Prop :=
  (c.map Prod.fst).Nodup ∧
    ∀ e ∈ c, (e.2.map Prod.fst).Nodup ∧ ∀ pq ∈ e.2, 0 < pq.2

theorem bumpInner_keys (inner : List (String × Nat)) (p : String) :
    (bumpInner inner p).map Prod.fst =
      if p ∈ inner.map Prod.fst then inner.map Prod.fst
      else inner.map Prod.fst ++ [p] := by
  induction inner with
  | nil => simp [bumpInner]
  | cons e rest ih =>
      obtain ⟨q, n⟩ := e
      by_cases hq : q = p
      · subst hq; simp [bumpInner]
      · have hpq : ¬p = q := fun hh => hq hh.symm
        by_cases hp : p ∈ rest.map Prod.fst
        · simp [bumpInner, hq, hpq, hp, ih]
        · simp [bumpInner, hq, hpq, hp, ih]

theorem bumpInner_pos (inner : List (String × Nat)) (p : String)
    (h : ∀ pq ∈ inner, 0 < pq.2) : ∀ pq ∈ bumpInner inner p, 0 < pq.2 := by
  induction inner with
  | nil =>
      intro pq hpq
      simp [bumpInner] at hpq
      simp [hpq]
  | cons e rest ih =>
      obtain ⟨q, n⟩ := e
      intro pq hpq
      by_cases hq : q = p
      · subst hq
        rw [show bumpInner ((q, n) :: rest) q = (q, n + 1) :: rest from by
          simp [bumpInner]] at hpq
        rcases List.mem_cons.mp hpq with heq | hmem
        · rw [heq]; simp
        · exact h pq (List.mem_cons_of_mem _ hmem)
      · rw [show bumpInner ((q, n) :: rest) p = (q, n) :: bumpInner rest p from by
          simp [bumpInner, hq]] at hpq
        rcases List.mem_cons.mp hpq with heq | hmem
        · rw [heq]; exact h (q, n) (List.mem_cons_self _ _)
        · exact ih (fun x hx => h x (List.mem_cons_of_mem _ hx)) pq hmem

theorem bumpInner_keys_nodup (inner : List (String × Nat)) (p : String)
    (h : (inner.map Prod.fst).Nodup) : ((bumpInner inner p).map Prod.fst).Nodup := by
  rw [bumpInner_keys]
  by_cases hp : p ∈ inner.map Prod.fst
  · simpa [hp] using h
  · simp [hp, List.nodup_append, h]

theorem bump_keys (c : Counts) (sid p : String) :
    (bump c sid p).map Prod.fst =
      if sid ∈ c.map Prod.fst then c.map Prod.fst
      else c.map Prod.fst ++ [sid] := by
  induction c with
  | nil => simp [bump]
  | cons e rest ih =>
      obtain ⟨s, inner⟩ := e
      by_cases hs : s = sid
      · subst hs; simp [bump]
      · have hss : ¬sid = s := fun hh => hs hh.symm
        by_cases hmem : sid ∈ rest.map Prod.fst
        · simp [bump, hs, hss, hmem, ih]
        · simp [bump, hs, hss, hmem, ih]

theorem bump_mem (c : Counts) (sid p : String) :
    ∀ e ∈ bump c sid p, e ∈ c ∨
      (∃ inner, e = (sid, bumpInner inner p) ∧ (sid, inner) ∈ c) ∨
      e = (sid, [(p, 1)]) := by
  induction c with
  | nil =>
      intro e he
      simp [bump] at he
      exact Or.inr (Or.inr he)
  | cons hd rest ih =>
      obtain ⟨s, inner⟩ := hd
      intro e he
      by_cases hs : s = sid
      · subst hs
        rw [show bump ((s, inner) :: rest) s p = (s, bumpInner inner p) :: rest from by
          simp [bump]] at he
        rcases List.mem_cons.mp he with heq | hmem
        · exact Or.inr (Or.inl ⟨inner, heq, List.mem_cons_self _ _⟩)
        · exact Or.inl (List.mem_cons_of_mem _ hmem)
      · rw [show bump ((s, inner) :: rest) sid p = (s, inner) :: bump rest sid p from by
          simp [bump, hs]] at he
        rcases List.mem_cons.mp he with heq | hmem
        · exact Or.inl (heq ▸ List.mem_cons_self _ _)
        · rcases ih e hmem with hmem2 | ⟨inner2, heq2, hmem2⟩ | heq2
          · exact Or.inl (List.mem_cons_of_mem _ hmem2)
          · exact Or.inr (Or.inl ⟨inner2, heq2, List.mem_cons_of_mem _ hmem2⟩)
          · exact Or.inr (Or.inr heq2)

theorem goodCounts_bump (c : Counts) (sid p : String) (h : goodCounts c) :
    goodCounts (bump c sid p) := by
  obtain ⟨hkeys, hinner⟩ := h
  constructor
  · rw [bump_keys]
    by_cases hs : sid ∈ c.map Prod.fst
    · simpa [hs] using hkeys
    · simp [hs, List.nodup_append, hkeys]
  · intro e he
    rcases bump_mem c sid p e he with hmem | ⟨inner, rfl, hmem⟩ | rfl
    · exact hinner e hmem
    · obtain ⟨hnd, hpos⟩ := hinner (sid, inner) hmem
      exact ⟨bumpInner_keys_nodup inner p hnd, bumpInner_pos inner p hpos⟩
    · refine ⟨by simp, ?_⟩
      intro pq hpq
      simp at hpq
      simp [hpq]

theorem buildCountsGo_good (rows : List Row) :
    ∀ acc res, buildCountsGo acc rows = Except.ok res →
      goodCounts acc → goodCounts res := by
  induction rows with
  | nil =>
      intro acc res h hg
      simp only [buildCountsGo] at h
      cases h
      exact hg
  | cons r rs ih =>
      intro acc res h hg
      simp only [buildCountsGo] at h
      cases h1 : rowGetE r "shipment_identifier" with
      | error e => rw [h1] at h; simp [Bind.bind, Except.bind] at h
      | ok sidr =>
        rw [h1] at h
        cases h2 : rowGetE r "product" with
        | error e => rw [h2] at h; simp [Bind.bind, Except.bind] at h
        | ok pr =>
          rw [h2] at h
          simp only [Bind.bind, Except.bind] at h
          exact ih _ _ h (goodCounts_bump acc sidr pr hg)

theorem buildCounts_good (rows : List Row) (c : Counts)
    (h : buildCounts rows = Except.ok c) : goodCounts c :=
  buildCountsGo_good rows [] c h ⟨List.nodup_nil, fun e he => absurd he (List.not_mem_nil e)⟩

/-- C2: for a shipment identifier present in both the fact rows (it has
an entry `prods` in the counts accumulator) and the location rows (the built
mapping yields `loc`), the engine's emission step for that identifier
produces exactly one canonical tuple per entry of `prods`; the entry is the
unique one for that identifier; the product names in `prods` are distinct
and are exactly the distinct product names among the fact rows carrying
that identifier; and every emitted tuple's origin and destination are
copied from `loc`. -/
theorem join_complete (rows1 rows2 : List Row) (info : ShipInfo)
    (counts : Counts) (sid : String) (loc : LocInfo)
    (prods : List (String × Nat))
    (h2 : buildShipmentInfo rows2 = Except.ok info)
    (h1 : buildCounts rows1 = Except.ok counts)
    (hl : lookupLoc info sid = some loc)
    (hc : lookupCounts counts sid = some prods) :
    emitEntry info (sid, prods) =
      (prods.map (fun pq => ⟨pq.1, (pq.2 : Int), loc.1, loc.2⟩), []) ∧
    (sid, prods) ∈ counts ∧
    (prods.map Prod.fst).Nodup ∧
    (counts.map Prod.fst).Nodup ∧
    (∀ p, p ∈ prods.map Prod.fst ↔
      ∃ r ∈ rows1, rowGet r "shipment_identifier" = some sid ∧
        rowGet r "product" = some p) := by
  have hgood := buildCounts_good rows1 counts h1
  have hmem := lookupCounts_mem counts sid prods hc
  refine ⟨?_, hmem, (hgood.2 (sid, prods) hmem).1, hgood.1, ?_⟩
  · unfold emitEntry
    simp [hl]
  · intro p
    constructor
    · intro hp
      have hsome := (lookupInner_isSome_iff prods p).mpr hp
      obtain ⟨n, hn⟩ := Option.isSome_iff_exists.mp hsome
      have hpos : 0 < n :=
        (hgood.2 (sid, prods) hmem).2 (p, n) (lookupInner_mem prods p n hn)
      have hcount : countOf counts sid p = n := by
        unfold countOf
        rw [hc, Option.getD_some, hn, Option.getD_some]
      have hcp : 0 < rows1.countP (factPred sid p) := by
        rw [← buildCounts_countOf rows1 counts sid p h1, hcount]
        exact hpos
      obtain ⟨r, hr, hpr⟩ := List.countP_pos_iff.mp hcp
      refine ⟨r, hr, ?_⟩
      simpa [factPred] using hpr
    · rintro ⟨r, hr, hsid, hp⟩
      have hcp : 0 < rows1.countP (factPred sid p) :=
        List.countP_pos_iff.mpr ⟨r, hr, by simp [factPred, hsid, hp]⟩
      have hpos : 0 < countOf counts sid p := by
        rw [buildCounts_countOf rows1 counts sid p h1]
        exact hcp
      unfold countOf at hpos
      rw [hc, Option.getD_some] at hpos
      cases hn : lookupInner prods p with
      | none => rw [hn] at hpos; simp at hpos
      | some n =>
          exact (lookupInner_isSome_iff prods p).mp (by rw [hn]; rfl)

/-- The location rows of the spec's worked example. -/
def cRows2 : List Row :=
  [[("shipment_identifier", "A1"), ("origin_warehouse", "W2"),
    ("destination_store", "S2")]]

/-- The location mapping built from `cRows2`. -/
def cInfo : ShipInfo := [("A1", ("W2", "S2"))]

theorem join_complete_witness :
    emitEntry cInfo ("A1", [("Bolt", 2), ("Nut", 1)]) =
      ([⟨"Bolt", 2, "W2", "S2"⟩, ⟨"Nut", 1, "W2", "S2"⟩], []) :=
  (join_complete cRows1 cRows2 cInfo cCounts "A1" ("W2", "S2")
    [("Bolt", 2), ("Nut", 1)] rfl rfl rfl rfl).1

/-! ## Missing-location skip and quantity positivity -/

theorem warnMsg_mem_emitTuples (info : ShipInfo) (counts : Counts)
    (sid : String) (prods : List (String × Nat))
    (hmem : (sid, prods) ∈ counts) (hmiss : lookupLoc info sid = none) :
    warnMsg sid ∈ (emitTuples info counts).2 := by
  induction counts with
  | nil => cases hmem
  | cons e rest ih =>
      simp only [emitTuples]
      rcases List.mem_cons.mp hmem with heq | hmem2
      · rw [← heq]
        unfold emitEntry
        simp [hmiss]
      · exact List.mem_append_right _ (ih hmem2)

/-- C4: a shipment identifier present in the fact rows (it has an entry
in the counts accumulator) but absent from the location mapping contributes
zero canonical tuples — its emission step yields no tuple at all, only the
warning — and the whole run still completes successfully with that warning
reported. -/
theorem missing_location_skip (db : DB) (rows1 rows2 : List Row)
    (info : ShipInfo) (counts : Counts) (sid : String)
    (prods : List (String × Nat))
    (h2 : buildShipmentInfo rows2 = Except.ok info)
    (h1 : buildCounts rows1 = Except.ok counts)
    (hc : lookupCounts counts sid = some prods)
    (hmiss : lookupLoc info sid = none) :
    emitEntry info (sid, prods) = ([], [warnMsg sid]) ∧
    ∃ db' warns, process_shipping_data_1_and_2 db rows1 rows2 =
      Except.ok (db', warns) ∧ warnMsg sid ∈ warns := by
  constructor
  · unfold emitEntry
    simp [hmiss]
  · refine ⟨(emitTuples info counts).1.foldl persistCanon db,
      (emitTuples info counts).2, ?_, ?_⟩
    · unfold process_shipping_data_1_and_2
      rw [h2]
      simp only [Bind.bind, Except.bind]
      rw [h1]
    · exact warnMsg_mem_emitTuples info counts sid prods
        (lookupCounts_mem counts sid prods hc) hmiss

theorem missing_location_skip_witness :
    emitEntry ([] : ShipInfo) ("A1", [("Bolt", 2), ("Nut", 1)]) =
      ([], [warnMsg "A1"]) :=
  (missing_location_skip emptyDB cRows1 [] [] cCounts "A1"
    [("Bolt", 2), ("Nut", 1)] rfl rfl rfl rfl).1

theorem get_or_create_product_shipments (db : DB) (n : String) :
    (get_or_create_product db n).2.shipments = db.shipments := by
  unfold get_or_create_product
  cases db.products.find? (fun p => p.name == n) <;> simp

theorem persistCanon_shipments (db : DB) (c : Canon) :
    (persistCanon db c).shipments =
      db.shipments ++ [⟨(get_or_create_product db c.product_name).1,
        c.quantity, c.origin, c.destination⟩] := by
  simp only [persistCanon, insert_shipment]
  rw [get_or_create_product_shipments]

theorem foldl_persistCanon_shipments (canons : List Canon) :
    ∀ db s, s ∈ (canons.foldl persistCanon db).shipments →
      s ∈ db.shipments ∨ ∃ c ∈ canons, s.quantity = c.quantity := by
  induction canons with
  | nil => intro db s hs; exact Or.inl hs
  | cons c cs ih =>
      intro db s hs
      rw [List.foldl_cons] at hs
      rcases ih (persistCanon db c) s hs with hmem | ⟨c', hc', hq⟩
      · rw [persistCanon_shipments] at hmem
        rcases List.mem_append.mp hmem with hmem2 | hmem2
        · exact Or.inl hmem2
        · refine Or.inr ⟨c, List.mem_cons_self _ _, ?_⟩
          rw [List.mem_singleton.mp hmem2]
      · exact Or.inr ⟨c', List.mem_cons_of_mem _ hc', hq⟩

theorem emitTuples_quantity (info : ShipInfo) (counts : Counts) :
    ∀ c ∈ (emitTuples info counts).1,
      ∃ e ∈ counts, ∃ pq ∈ e.2, c.quantity = (pq.2 : Int) := by
  induction counts with
  | nil => intro c hc; cases hc
  | cons e rest ih =>
      intro c hc
      simp only [emitTuples] at hc
      rcases List.mem_append.mp hc with hone | hrest
      · unfold emitEntry at hone
        cases hloc : lookupLoc info e.1 with
        | none => rw [hloc] at hone; cases hone
        | some loc =>
            rw [hloc] at hone
            simp only at hone
            obtain ⟨pq, hpq, rfl⟩ := List.mem_map.mp hone
            exact ⟨e, List.mem_cons_self _ _, pq, hpq, rfl⟩
      · obtain ⟨e', he', pq, hpq, hq⟩ := ih c hrest
        exact ⟨e', List.mem_cons_of_mem _ he', pq, hpq, hq⟩

/-- C7 (amended): every shipment the two-source (join-and-aggregate)
family inserts has a positive quantity, because its quantities are
occurrence counts that start at 1.  (The self-contained family carries no
such guarantee: see the counterexample.) -/
theorem joined_family_quantity_positive (db : DB) (rows1 rows2 : List Row)
    (db' : DB) (warns : List String)
    (h : process_shipping_data_1_and_2 db rows1 rows2 = Except.ok (db', warns)) :
    ∀ s ∈ db'.shipments, s ∈ db.shipments ∨ 0 < s.quantity := by
  unfold process_shipping_data_1_and_2 at h
  cases h2 : buildShipmentInfo rows2 with
  | error e => rw [h2] at h; simp [Bind.bind, Except.bind] at h
  | ok info =>
    rw [h2] at h
    cases h1 : buildCounts rows1 with
    | error e => rw [h1] at h; simp [Bind.bind, Except.bind] at h
    | ok counts =>
      rw [h1] at h
      simp only [Bind.bind, Except.bind, Except.ok.injEq, Prod.mk.injEq] at h
      obtain ⟨hdb, hw⟩ := h
      subst hdb
      intro s hs
      rcases foldl_persistCanon_shipments (emitTuples info counts).1 db s hs with
        hmem | ⟨c, hcm, hq⟩
      · exact Or.inl hmem
      · obtain ⟨e, he, pq, hpq, hqq⟩ := emitTuples_quantity info counts c hcm
        right
        rw [hq, hqq]
        have hpos : 0 < pq.2 :=
          ((buildCounts_good rows1 counts h1).2 e he).2 pq hpq
        exact_mod_cast hpos

theorem joined_family_quantity_positive_witness :
    (⟨1, 1, "W2", "S2"⟩ : Shipment) ∈ emptyDB.shipments ∨
      (0 : Int) < (⟨1, 1, "W2", "S2"⟩ : Shipment).quantity :=
  joined_family_quantity_positive emptyDB
    [[("shipment_identifier", "A1"), ("product", "Bolt")]] cRows2
    ⟨[⟨1, "Bolt"⟩], [⟨1, 1, "W2", "S2"⟩], 2⟩ [] rfl
    ⟨1, 1, "W2", "S2"⟩ (by decide)

/-- A self-contained row whose `product_quantity` is the string "0". -/
def cZeroRow : Row :=
  [("origin_warehouse", "W1"), ("destination_store", "S1"),
   ("product", "Widget"), ("product_quantity", "0")]

/-- C7 counterexample: the self-contained family inserts a shipment with
quantity 0, which is not positive — the code performs no positivity check on
the parsed `product_quantity`. -/
theorem shipment_quantity_zero_cex :
    process_shipping_data_0 emptyDB [cZeroRow] =
      Except.ok ⟨[⟨1, "Widget"⟩], [⟨1, 0, "W1", "S1"⟩], 2⟩ ∧
    ¬(0 : Int) < 0 :=
  ⟨rfl, by decide⟩

/-! ## Malformed rows and the joined family -/

theorem buildShipmentInfoGo_error_shape (rows : List Row) :
    ∀ acc e, buildShipmentInfoGo acc rows = Except.error e →
      ∃ f, e = Err.malformedMissingField f := by
  induction rows with
  | nil =>
      intro acc e h
      simp only [buildShipmentInfoGo] at h
      cases h
  | cons r rs ih =>
      intro acc e h
      simp only [buildShipmentInfoGo] at h
      cases h1 : rowGetE r "shipment_identifier" with
      | error e1 =>
          rw [h1] at h
          simp only [Bind.bind, Except.bind] at h
          injection h with h
          subst h
          exact ⟨"shipment_identifier", ((rowGetE_error_iff _ _ _).mp h1).2⟩
      | ok sidr =>
        rw [h1] at h
        cases h2 : rowGetE r "origin_warehouse" with
        | error e2 =>
            rw [h2] at h
            simp only [Bind.bind, Except.bind] at h
            injection h with h
            subst h
            exact ⟨"origin_warehouse", ((rowGetE_error_iff _ _ _).mp h2).2⟩
        | ok o =>
          rw [h2] at h
          cases h3 : rowGetE r "destination_store" with
          | error e3 =>
              rw [h3] at h
              simp only [Bind.bind, Except.bind] at h
              injection h with h
              subst h
              exact ⟨"destination_store", ((rowGetE_error_iff _ _ _).mp h3).2⟩
          | ok d =>
              rw [h3] at h
              simp only [Bind.bind, Except.bind] at h
              exact ih _ e h

theorem buildCountsGo_error_shape (rows : List Row) :
    ∀ acc e, buildCountsGo acc rows = Except.error e →
      ∃ f, e = Err.malformedMissingField f := by
  induction rows with
  | nil =>
      intro acc e h
      simp only [buildCountsGo] at h
      cases h
  | cons r rs ih =>
      intro acc e h
      simp only [buildCountsGo] at h
      cases h1 : rowGetE r "shipment_identifier" with
      | error e1 =>
          rw [h1] at h
          simp only [Bind.bind, Except.bind] at h
          injection h with h
          subst h
          exact ⟨"shipment_identifier", ((rowGetE_error_iff _ _ _).mp h1).2⟩
      | ok sidr =>
        rw [h1] at h
        cases h2 : rowGetE r "product" with
        | error e2 =>
            rw [h2] at h
            simp only [Bind.bind, Except.bind] at h
            injection h with h
            subst h
            exact ⟨"product", ((rowGetE_error_iff _ _ _).mp h2).2⟩
        | ok pr =>
            rw [h2] at h
            simp only [Bind.bind, Except.bind] at h
            exact ih _ e h

theorem buildCountsGo_ok_wf (rows : List Row) :
    ∀ acc res, buildCountsGo acc rows = Except.ok res →
      ∀ r ∈ rows, wfFactRow r = true := by
  induction rows with
  | nil => intro acc res _ r hr; cases hr
  | cons r rs ih =>
      intro acc res h r' hr'
      simp only [buildCountsGo] at h
      cases h1 : rowGetE r "shipment_identifier" with
      | error e => rw [h1] at h; simp [Bind.bind, Except.bind] at h
      | ok sidr =>
        rw [h1] at h
        cases h2 : rowGetE r "product" with
        | error e => rw [h2] at h; simp [Bind.bind, Except.bind] at h
        | ok pr =>
          rw [h2] at h
          simp only [Bind.bind, Except.bind] at h
          rcases List.mem_cons.mp hr' with rfl | hmem
          · unfold wfFactRow
            rw [(rowGetE_ok_iff _ _ _).mp h1, (rowGetE_ok_iff _ _ _).mp h2]
            rfl
          · exact ih _ _ h r' hmem

/-- C8 (amended): the joined family fails with a missing-field
(`MalformedRecord`) error whenever a location row is missing any of
`shipment_identifier`, `origin_warehouse`, `destination_store`, or a fact
row is missing `shipment_identifier` or `product` — those being the fields
each loop actually reads.  (A fact row is never required to carry
`origin_warehouse`/`destination_store`: see the counterexample.) -/
theorem malformed_row_aborts (db : DB) (rows1 rows2 : List Row)
    (h : (∃ r ∈ rows2, wfLocRow r = false) ∨
      (∃ r ∈ rows1, wfFactRow r = false)) :
    ∃ f, process_shipping_data_1_and_2 db rows1 rows2 =
      Except.error (Err.malformedMissingField f) := by
  unfold process_shipping_data_1_and_2
  cases h2 : buildShipmentInfo rows2 with
  | error e =>
      obtain ⟨f, rfl⟩ := buildShipmentInfoGo_error_shape rows2 [] e h2
      exact ⟨f, by simp [Bind.bind, Except.bind]⟩
  | ok info =>
      have hwf2 := buildShipmentInfoGo_ok_wf rows2 [] info h2
      rcases h with ⟨r, hr, hbad⟩ | ⟨r, hr, hbad⟩
      · rw [hwf2 r hr] at hbad; cases hbad
      · cases h1 : buildCounts rows1 with
        | error e =>
            obtain ⟨f, rfl⟩ := buildCountsGo_error_shape rows1 [] e h1
            refine ⟨f, ?_⟩
            simp only [Bind.bind, Except.bind]
        | ok counts =>
            have hwf1 := buildCountsGo_ok_wf rows1 [] counts h1
            rw [hwf1 r hr] at hbad
            cases hbad

/-- A location row carrying only its shipment identifier. -/
def cBadLocRow : Row := [("shipment_identifier", "A1")]

theorem malformed_row_aborts_witness :
    ∃ f, process_shipping_data_1_and_2 emptyDB [] [cBadLocRow] =
      Except.error (Err.malformedMissingField f) :=
  malformed_row_aborts emptyDB [] [cBadLocRow]
    (Or.inl ⟨cBadLocRow, List.mem_cons_self _ _, by decide⟩)

/-- A fact row carrying only `shipment_identifier` and `product`. -/
def cFactOnlyRow : Row := [("shipment_identifier", "A1"), ("product", "Bolt")]

/-- C8 counterexample: a fact row missing `origin_warehouse` and
`destination_store` does not make the engine fail — the joined family
processes it successfully, so the claim's field list is too broad for fact
rows. -/
theorem malformed_fields_cex :
    rowGet cFactOnlyRow "origin_warehouse" = none ∧
    rowGet cFactOnlyRow "destination_store" = none ∧
    process_shipping_data_1_and_2 emptyDB [cFactOnlyRow] cRows2 =
      Except.ok (⟨[⟨1, "Bolt"⟩], [⟨1, 1, "W2", "S2"⟩], 2⟩, []) :=
  ⟨rfl, rfl, rfl⟩

/-! ## Normalization of self-contained rows -/

theorem rowGetE_of_none (r : Row) (k : String) (h : rowGet r k = none) :
    rowGetE r k = Except.error (Err.malformedMissingField k) := by
  unfold rowGetE
  rw [h]

theorem parseIntE_of_none (s : String) (h : pythonInt s = none) :
    parseIntE s = Except.error (Err.malformedBadInt s) := by
  unfold parseIntE
  rw [h]

theorem parseIntE_of_some (s : String) (q : Int) (h : pythonInt s = some q) :
    parseIntE s = Except.ok q := by
  unfold parseIntE
  rw [h]

/-- C9: normalizing one self-contained row fails with a
`MalformedRecord`-kind error exactly when `product_quantity` does not parse
as an integer or a required field is absent; on a well-formed row it
returns the canonical tuple (product name, parsed quantity, origin,
destination) — and, being a pure function, it has no side effect. -/
theorem normalize0_spec (r : Row) :
    ((∃ e, normalize0 r = Except.error e) ↔
      (rowGet r "product" = none ∨ rowGet r "product_quantity" = none ∨
       (∃ qs, rowGet r "product_quantity" = some qs ∧ pythonInt qs = none) ∨
       rowGet r "origin_warehouse" = none ∨
       rowGet r "destination_store" = none)) ∧
    (∀ pn qs q o d, rowGet r "product" = some pn →
      rowGet r "product_quantity" = some qs → pythonInt qs = some q →
      rowGet r "origin_warehouse" = some o →
      rowGet r "destination_store" = some d →
      normalize0 r = Except.ok ⟨pn, q, o, d⟩) := by
  cases hp : rowGet r "product" with
  | none =>
      have hrun : normalize0 r =
          Except.error (Err.malformedMissingField "product") := by
        unfold normalize0
        rw [rowGetE_of_none r "product" hp]
        simp [Bind.bind, Except.bind]
      constructor
      · simp [hrun]
      · intro pn qs q o d hpn hqs hq2 ho2 hd2
        cases hpn
  | some pn0 =>
    cases hq : rowGet r "product_quantity" with
    | none =>
        have hrun : normalize0 r =
            Except.error (Err.malformedMissingField "product_quantity") := by
          unfold normalize0
          rw [(rowGetE_ok_iff r "product" pn0).mpr hp]
          simp only [Bind.bind, Except.bind]
          rw [rowGetE_of_none r "product_quantity" hq]
        constructor
        · simp [hrun, hp, hq]
        · intro pn qs q o d hpn hqs hq2 ho2 hd2
          cases hqs
    | some qs0 =>
      cases hpi : pythonInt qs0 with
      | none =>
          have hrun : normalize0 r =
              Except.error (Err.malformedBadInt qs0) := by
            unfold normalize0
            rw [(rowGetE_ok_iff r "product" pn0).mpr hp]
            simp only [Bind.bind, Except.bind]
            rw [(rowGetE_ok_iff r "product_quantity" qs0).mpr hq]
            simp only [Except.bind]
            rw [parseIntE_of_none qs0 hpi]
          constructor
          · simp [hrun, hp, hq, hpi]
          · intro pn qs q o d hpn hqs hq2 ho2 hd2
            injection hqs with hqs
            subst hqs
            rw [hpi] at hq2
            cases hq2
      | some q0 =>
        cases ho : rowGet r "origin_warehouse" with
        | none =>
            have hrun : normalize0 r =
                Except.error (Err.malformedMissingField "origin_warehouse") := by
              unfold normalize0
              rw [(rowGetE_ok_iff r "product" pn0).mpr hp]
              simp only [Bind.bind, Except.bind]
              rw [(rowGetE_ok_iff r "product_quantity" qs0).mpr hq]
              simp only [Except.bind]
              rw [parseIntE_of_some qs0 q0 hpi]
              simp only [Except.bind]
              rw [rowGetE_of_none r "origin_warehouse" ho]
            constructor
            · simp [hrun, hp, hq, hpi, ho]
            · intro pn qs q o d hpn hqs hq2 ho2 hd2
              cases ho2
        | some o0 =>
          cases hd : rowGet r "destination_store" with
          | none =>
              have hrun : normalize0 r =
                  Except.error (Err.malformedMissingField "destination_store") := by
                unfold normalize0
                rw [(rowGetE_ok_iff r "product" pn0).mpr hp]
                simp only [Bind.bind, Except.bind]
                rw [(rowGetE_ok_iff r "product_quantity" qs0).mpr hq]
                simp only [Except.bind]
                rw [parseIntE_of_some qs0 q0 hpi]
                simp only [Except.bind]
                rw [(rowGetE_ok_iff r "origin_warehouse" o0).mpr ho]
                simp only [Except.bind]
                rw [rowGetE_of_none r "destination_store" hd]
              constructor
              · simp [hrun, hp, hq, hpi, ho, hd]
              · intro pn qs q o d hpn hqs hq2 ho2 hd2
                cases hd2
          | some d0 =>
              have hrun : normalize0 r = Except.ok ⟨pn0, q0, o0, d0⟩ := by
                unfold normalize0
                rw [(rowGetE_ok_iff r "product" pn0).mpr hp]
                simp only [Bind.bind, Except.bind]
                rw [(rowGetE_ok_iff r "product_quantity" qs0).mpr hq]
                simp only [Except.bind]
                rw [parseIntE_of_some qs0 q0 hpi]
                simp only [Except.bind]
                rw [(rowGetE_ok_iff r "origin_warehouse" o0).mpr ho]
                simp only [Except.bind]
                rw [(rowGetE_ok_iff r "destination_store" d0).mpr hd]
              constructor
              · simp [hrun, hp, hq, hpi, ho, hd]
              · intro pn qs q o d hpn hqs hq2 ho2 hd2
                injection hpn with hpn
                subst hpn
                injection hqs with hqs
                subst hqs
                rw [hpi] at hq2
                injection hq2 with hq2
                subst hq2
                injection ho2 with ho2
                subst ho2
                injection hd2 with hd2
                subst hd2
                exact hrun

/-- The self-contained row of the spec's worked example. -/
def cGoodRow0 : Row :=
  [("origin_warehouse", "W1"), ("destination_store", "S1"),
   ("product", "Widget"), ("product_quantity", "5")]

theorem normalize0_spec_witness :
    normalize0 cGoodRow0 = Except.ok ⟨"Widget", 5, "W1", "S1"⟩ :=
  (normalize0_spec cGoodRow0).2 "Widget" "5" 5 "W1" "S1" rfl rfl rfl rfl rfl

/-! ## Product resolution -/

/-- C3: resolving the same product name twice in a run returns the same
id both times, the second call has no further side effect, and at most one
Product row is inserted overall; a name already present is returned with
the store unchanged, and an absent name inserts exactly one new row and
returns its newly assigned id. -/
theorem resolve_idempotent (db : DB) (n : String) :
    (get_or_create_product (get_or_create_product db n).2 n).1 =
      (get_or_create_product db n).1 ∧
    (get_or_create_product (get_or_create_product db n).2 n).2 =
      (get_or_create_product db n).2 ∧
    (get_or_create_product db n).2.products.length ≤ db.products.length + 1 ∧
    (∀ p, db.products.find? (fun q => q.name == n) = some p →
      get_or_create_product db n = (p.id, db)) ∧
    (db.products.find? (fun q => q.name == n) = none →
      get_or_create_product db n =
        (db.nextId,
          ⟨db.products ++ [⟨db.nextId, n⟩], db.shipments, db.nextId + 1⟩)) := by
  cases hf : db.products.find? (fun q => q.name == n) with
  | some p =>
      have h1 : get_or_create_product db n = (p.id, db) := by
        unfold get_or_create_product
        rw [hf]
      refine ⟨?_, ?_, ?_, fun p' hp' => ?_, fun hnone => ?_⟩
      · simp [h1]
      · simp [h1]
      · rw [h1]
        exact Nat.le_succ _
      · injection hp' with hp'
        rw [← hp']
        exact h1
      · cases hnone
  | none =>
      have h1 : get_or_create_product db n =
          (db.nextId,
            ⟨db.products ++ [⟨db.nextId, n⟩], db.shipments, db.nextId + 1⟩) := by
        unfold get_or_create_product
        rw [hf]
      have hfind2 : (db.products ++ [⟨db.nextId, n⟩] : List Product).find?
          (fun q => q.name == n) = some ⟨db.nextId, n⟩ := by
        rw [List.find?_append, hf, Option.none_or]
        exact List.find?_cons_of_pos [] (by simp)
      have h2 : get_or_create_product
          (⟨db.products ++ [⟨db.nextId, n⟩], db.shipments, db.nextId + 1⟩ : DB) n =
          (db.nextId,
            ⟨db.products ++ [⟨db.nextId, n⟩], db.shipments, db.nextId + 1⟩) := by
        unfold get_or_create_product
        simp only
        rw [hfind2]
      refine ⟨?_, ?_, ?_, fun p' hp' => ?_, fun _ => h1⟩
      · rw [h1]
        exact congrArg Prod.fst h2
      · rw [h1]
        exact congrArg Prod.snd h2
      · rw [h1]
        simp
      · cases hp'

theorem resolve_idempotent_witness :
    (get_or_create_product (get_or_create_product emptyDB "Widget").2
        "Widget").1 = (get_or_create_product emptyDB "Widget").1 ∧
    get_or_create_product emptyDB "Widget" =
      (emptyDB.nextId,
        ⟨emptyDB.products ++ [⟨emptyDB.nextId, "Widget"⟩],
          emptyDB.shipments, emptyDB.nextId + 1⟩) :=
  ⟨(resolve_idempotent emptyDB "Widget").1,
    (resolve_idempotent emptyDB "Widget").2.2.2.2 rfl⟩

/-- C10: the spec's non-emptiness constraint on product names is not
enforced: for every string, including the empty string, resolution succeeds
and behaves uniformly — a present name returns its existing id with the
store untouched, and an absent name (even the empty string) is inserted as
a Product row with that exact name and its new id is returned. -/
theorem resolve_any_name (db : DB) (name : String) :
    (∀ p, db.products.find? (fun q => q.name == name) = some p →
      get_or_create_product db name = (p.id, db)) ∧
    (db.products.find? (fun q => q.name == name) = none →
      (get_or_create_product db name).1 = db.nextId ∧
      (get_or_create_product db name).2.products =
        db.products ++ [⟨db.nextId, name⟩] ∧
      (get_or_create_product db name).2.shipments = db.shipments ∧
      ⟨db.nextId, name⟩ ∈ (get_or_create_product db name).2.products) := by
  constructor
  · intro p hp
    unfold get_or_create_product
    rw [hp]
  · intro hnone
    unfold get_or_create_product
    rw [hnone]
    refine ⟨rfl, rfl, rfl, ?_⟩
    simp

theorem resolve_any_name_witness :
    (get_or_create_product emptyDB "").1 = emptyDB.nextId ∧
    (get_or_create_product emptyDB "").2.products =
      emptyDB.products ++ [⟨emptyDB.nextId, ""⟩] ∧
    (get_or_create_product emptyDB "").2.shipments = emptyDB.shipments ∧
    ⟨emptyDB.nextId, ""⟩ ∈ (get_or_create_product emptyDB "").2.products :=
  (resolve_any_name emptyDB "").2 rfl

/-! ## Atomic failure of the whole run -/

/-- C5: if any unrecovered error occurs partway through a run, the store
visible after `main` is exactly the initial store — every Product and
Shipment write of the run is rolled back, no partial commit — and the
causing error is re-surfaced as the run's reported error. -/
theorem atomic_failure (db0 : DB) (rows0 rows1 rows2 : List Row) (e : Err)
    (h : runPipeline db0 rows0 rows1 rows2 = Except.error e) :
    mainVisible db0 rows0 rows1 rows2 = (db0, some e) ∧
    (mainVisible db0 rows0 rows1 rows2).1.products = db0.products ∧
    (mainVisible db0 rows0 rows1 rows2).1.shipments = db0.shipments := by
  unfold mainVisible
  rw [h]
  exact ⟨rfl, rfl, rfl⟩

/-- A store already holding one product and one shipment before the run. -/
def cDB0 : DB := ⟨[⟨1, "Widget"⟩], [⟨1, 5, "W1", "S1"⟩], 2⟩

theorem atomic_failure_witness :
    mainVisible cDB0 [[]] [] [] =
      (cDB0, some (Err.malformedMissingField "product")) :=
  (atomic_failure cDB0 [[]] [] [] (Err.malformedMissingField "product") rfl).1
